import Mathlib

/-!
# PolarMap 2.0 — the minute tick handler

A shallow embedding of `handle_tick` from `src/PolarMap_2.0.c`: the rotation
angle of the polar map, the 32-sector index `q` derived from it, the label
origin chosen by the `if`/`else` chain, the `HH:MM` label text and the angle
handed to the rotating bitmap layer.

C `int`/`int32_t` values are integers of `Int`; every arithmetic operation of
the source wraps its mathematical result into the signed 32-bit range
(`wrap32`), so that the absence of overflow is a theorem and not an assumption.
-/

namespace PolarMap

/-! ## 32-bit signed arithmetic -/

/-- Smallest value of a C `int32_t`. -/
def INT32_MIN : Int := -2147483648

/-- Largest value of a C `int32_t`. -/
def INT32_MAX : Int := 2147483647

/-- Membership in the signed 32-bit range. -/
def inInt32 (x : Int) : Prop := INT32_MIN ≤ x ∧ x ≤ INT32_MAX

instance : DecidablePred inInt32 :=
  fun x => inferInstanceAs (Decidable (INT32_MIN ≤ x ∧ x ≤ INT32_MAX))

/-- Two's-complement reduction of an integer into the signed 32-bit range. -/
def wrap32 (x : Int) : Int := (x + 2147483648) % 4294967296 - 2147483648

/-- C `a + b` on `int`. -/
def add32 (a b : Int) : Int := wrap32 (a + b)

/-- C `a * b` on `int`. -/
def mul32 (a b : Int) : Int := wrap32 (a * b)

/-- C `a / b` on `int`: the quotient truncates toward zero. -/
def div32 (a b : Int) : Int := wrap32 (Int.tdiv a b)

/-- C unary `-a` on `int`. -/
def neg32 (a : Int) : Int := wrap32 (-a)

/-- C `a & b` on `int`: bitwise and of the two's-complement representations. -/
def and32 (a b : Int) : Int := Int.land a b

/-! ## Constants -/

/-- Modelled from the spec: the Pebble SDK macro `TRIG_MAX_ANGLE` of `pebble.h`,
the number of angle units in a full revolution (`0x10000`). -/
def TRIG_MAX_ANGLE : Int := 65536

/-- Modelled from the spec: the Pebble SDK macro `TRIG_MAX_RATIO` of `pebble.h`,
the full-circle-minus-one bit mask (`0xffff`). -/
def TRIG_MAX_RATIO : Int := 65535

/-- The compiled-in `gmt_offset`, hours from GMT. -/
def gmt_offset : Int := 1

/-- Size in bytes of the `time_text` buffer. -/
def time_text_size : Nat := 8

/-! ## Data model -/

/-- The two fields of `struct tm` that the handler reads. -/
structure tm where
  tm_hour : Int
  tm_min : Int
  deriving DecidableEq

/-- A screen point. -/
structure GPoint where
  x : Int
  y : Int
  deriving DecidableEq

/-- A width and a height. -/
structure GSize where
  w : Int
  h : Int
  deriving DecidableEq

/-- A rectangle: origin and size. -/
structure GRect where
  origin : GPoint
  size : GSize
  deriving DecidableEq

/-- The display state the handler mutates: the frame of the time label, the
contents of `time_text` shown by the label, and the angle of the map layer. -/
structure Display where
  frame : GRect
  text : List Char
  map_angle : Int
  deriving DecidableEq

/-! ## The computation of `handle_tick` -/

/-- The `angle` of `handle_tick` for a GMT offset `tz`:
`0 + (TRIG_MAX_ANGLE * tz) / 24 + (TRIG_MAX_ANGLE * (tm_hour + tz)) / 24
   + (TRIG_MAX_ANGLE * tm_min) / (60 * 24)`. -/
def tick_angle (tz hour min : Int) : Int :=
  add32
    (add32
      (add32 0 (div32 (mul32 TRIG_MAX_ANGLE tz) 24))
      (div32 (mul32 TRIG_MAX_ANGLE (add32 hour tz)) 24))
    (div32 (mul32 TRIG_MAX_ANGLE min) (mul32 60 24))

/-- The masked angle `(angle + TRIG_MAX_ANGLE) & TRIG_MAX_RATIO`. -/
def normalize (angle : Int) : Int :=
  and32 (add32 angle TRIG_MAX_ANGLE) TRIG_MAX_RATIO

/-- The sector index
`q = (((angle + TRIG_MAX_ANGLE) & TRIG_MAX_RATIO) * 32) / TRIG_MAX_ANGLE`. -/
def quadrant (angle : Int) : Int :=
  div32 (mul32 (normalize angle) 32) TRIG_MAX_ANGLE

/-- The `if`/`else if` chain on `q`: the new origin of the label frame. When no
branch is taken the origin read from the layer is kept. -/
def place_origin (q : Int) (prev : GPoint) : GPoint :=
  if q ≤ 7 then ⟨0, -6⟩
  else if q ≤ 15 then ⟨0, 150⟩
  else if q ≤ 23 then ⟨90, 150⟩
  else if q ≤ 31 then ⟨90, -6⟩
  else prev

/-- Conversion `%.2d` of `snprintf`: an optional minus sign, then the decimal
digits of the magnitude, padded on the left with `0` to at least two digits. -/
def fmt_d2 (n : Int) : List Char :=
  let ds := Nat.toDigits 10 n.natAbs
  let padded := List.replicate (2 - ds.length) '0' ++ ds
  if n < 0 then '-' :: padded else padded

/-- The characters the format `"%.2d:%.2d"` produces before any truncation. -/
def format_time (hour min : Int) : List Char :=
  fmt_d2 hour ++ ':' :: fmt_d2 min

/-- The contents `snprintf(buf, size, "%.2d:%.2d", hour, min)` leaves in `buf`
(before the terminating NUL): at most `size - 1` characters of the output. -/
def snprintf_time (size : Nat) (hour min : Int) : List Char :=
  (format_time hour min).take (size - 1)

/-- The handler for a GMT offset `tz`: reads the label frame, replaces its
origin according to `q`, writes the label text and sets the map angle to
`-angle`. -/
def handle_tick_tz (tz : Int) (t : tm) (s : Display) : Display :=
  let angle := tick_angle tz t.tm_hour t.tm_min
  let q := quadrant angle
  let frame := s.frame
  let frame := { frame with origin := place_origin q frame.origin }
  { frame := frame
    text := snprintf_time time_text_size t.tm_hour t.tm_min
    map_angle := neg32 angle }

/-- The handler `handle_tick` as compiled, with `gmt_offset = +1`. -/
def handle_tick (t : tm) (s : Display) : Display :=
  handle_tick_tz gmt_offset t s

/-! ## Reference definitions over unbounded integers -/

/-- The angle formula over the integers, with truncating division and no
32-bit wrapping. -/
def angle_Z (tz hour min : Int) : Int :=
  Int.tdiv (TRIG_MAX_ANGLE * tz) 24
    + Int.tdiv (TRIG_MAX_ANGLE * (hour + tz)) 24
    + Int.tdiv (TRIG_MAX_ANGLE * min) (60 * 24)

/-- Normalisation by an explicit modulo: the non-negative remainder of the
angle modulo the full circle. -/
def normalize_mod (angle : Int) : Int := angle % TRIG_MAX_ANGLE

/-- The sector formula over the integers, with no 32-bit wrapping. -/
def quadrant_Z (angle : Int) : Int :=
  Int.tdiv (Int.land (angle + TRIG_MAX_ANGLE) TRIG_MAX_RATIO * 32) TRIG_MAX_ANGLE

/-- The mathematical result of every arithmetic operation `handle_tick`
performs on its way to `angle`, `q` and `-angle`, in evaluation order, each
computed from the 32-bit values of its operands. -/
def tick_intermediates (tz hour min : Int) : List Int :=
  let p1 := mul32 TRIG_MAX_ANGLE tz
  let d1 := div32 p1 24
  let s0 := add32 0 d1
  let hz := add32 hour tz
  let p2 := mul32 TRIG_MAX_ANGLE hz
  let d2 := div32 p2 24
  let s1 := add32 s0 d2
  let p3 := mul32 TRIG_MAX_ANGLE min
  let c := mul32 60 24
  let d3 := div32 p3 c
  let angle := add32 s1 d3
  let n := normalize angle
  let m := mul32 n 32
  [ TRIG_MAX_ANGLE * tz, Int.tdiv p1 24, 0 + d1,
    hour + tz, TRIG_MAX_ANGLE * hz, Int.tdiv p2 24, s0 + d2,
    TRIG_MAX_ANGLE * min, 60 * 24, Int.tdiv p3 c, s1 + d3,
    angle + TRIG_MAX_ANGLE, n * 32, Int.tdiv m TRIG_MAX_ANGLE,
    -angle ]

/-! ## Auxiliary facts on the 32-bit operations and the angle -/

theorem wrap32_eq {x : Int} (h : inInt32 x) : wrap32 x = x := by
  unfold inInt32 INT32_MIN INT32_MAX at h
  unfold wrap32
  omega

theorem nat_ldiff_mask (m : Nat) : Nat.ldiff 65535 m = 65535 - m % 65536 := by
  apply Nat.eq_of_testBit_eq
  intro i
  have h1 : (65535 : Nat) = 2 ^ 16 - 1 := by norm_num
  have h2 : 65535 - m % 65536 = 2 ^ 16 - (m % 2 ^ 16 + 1) := by
    have : (2 : Nat) ^ 16 = 65536 := by norm_num
    omega
  rw [Nat.testBit_ldiff, h2, Nat.testBit_two_pow_sub_succ (Nat.mod_lt _ (by norm_num)), h1,
    Nat.testBit_two_pow_sub_one, Nat.testBit_mod_two_pow]
  cases decide (i < 16) <;> simp

theorem land_mask (x : Int) : Int.land x 65535 = x % 65536 := by
  cases x with
  | ofNat n =>
    show ((n &&& 65535 : Nat) : Int) = (n : Int) % 65536
    have h := Nat.and_pow_two_sub_one_eq_mod n 16
    norm_num at h
    rw [h]
    norm_cast
  | negSucc m =>
    show ((Nat.ldiff 65535 m : Nat) : Int) = Int.negSucc m % 65536
    rw [nat_ldiff_mask, Int.negSucc_eq]
    omega

theorem tdiv_cases (x d : Int) (hd : 0 < d) :
    (0 ≤ x ∧ Int.tdiv x d = x / d) ∨ (x < 0 ∧ Int.tdiv x d = -((-x) / d)) := by
  rcases le_or_lt 0 x with h | h
  · exact Or.inl ⟨h, Int.tdiv_eq_ediv h hd.le⟩
  · refine Or.inr ⟨h, ?_⟩
    have h2 : Int.tdiv (-x) d = (-x) / d := Int.tdiv_eq_ediv (by omega) hd.le
    rw [← h2, Int.neg_tdiv, neg_neg]

theorem normalize_eq_emod (a : Int) (h : inInt32 (a + 65536)) :
    normalize a = a % 65536 := by
  unfold normalize and32 add32 TRIG_MAX_ANGLE TRIG_MAX_RATIO
  rw [wrap32_eq h, land_mask]
  omega

theorem normalize_range (a : Int) : 0 ≤ normalize a ∧ normalize a ≤ 65535 := by
  unfold normalize and32 TRIG_MAX_RATIO
  rw [land_mask]
  omega

theorem quadrant_eq (a : Int) :
    quadrant a = normalize a * 32 / 65536 := by
  have hn := normalize_range a
  unfold quadrant div32 mul32 TRIG_MAX_ANGLE
  have h1 : wrap32 (normalize a * 32) = normalize a * 32 :=
    wrap32_eq (by unfold inInt32 INT32_MIN INT32_MAX; omega)
  rw [h1, Int.tdiv_eq_ediv (by omega) (by norm_num)]
  exact wrap32_eq (by unfold inInt32 INT32_MIN INT32_MAX; omega)

theorem quadrant_range (a : Int) : 0 ≤ quadrant a ∧ quadrant a ≤ 31 := by
  have hn := normalize_range a
  rw [quadrant_eq]
  omega

theorem tick_steps (tz hour min : Int) (hh : 0 ≤ hour ∧ hour ≤ 23)
    (hm : 0 ≤ min ∧ min ≤ 59) (htz : -24 ≤ tz ∧ tz ≤ 24) :
    mul32 65536 tz = 65536 * tz ∧
      add32 hour tz = hour + tz ∧
      mul32 65536 (hour + tz) = 65536 * (hour + tz) ∧
      mul32 65536 min = 65536 * min ∧
      mul32 60 24 = 1440 ∧
      div32 (65536 * tz) 24 = Int.tdiv (65536 * tz) 24 ∧
      div32 (65536 * (hour + tz)) 24 = Int.tdiv (65536 * (hour + tz)) 24 ∧
      div32 (65536 * min) 1440 = Int.tdiv (65536 * min) 1440 ∧
      add32 0 (Int.tdiv (65536 * tz) 24) = Int.tdiv (65536 * tz) 24 ∧
      add32 (Int.tdiv (65536 * tz) 24) (Int.tdiv (65536 * (hour + tz)) 24)
        = Int.tdiv (65536 * tz) 24 + Int.tdiv (65536 * (hour + tz)) 24 ∧
      add32 (Int.tdiv (65536 * tz) 24 + Int.tdiv (65536 * (hour + tz)) 24)
          (Int.tdiv (65536 * min) 1440)
        = Int.tdiv (65536 * tz) 24 + Int.tdiv (65536 * (hour + tz)) 24
          + Int.tdiv (65536 * min) 1440 := by
  have r : ∀ {x : Int}, -2147483648 ≤ x → x ≤ 2147483647 → wrap32 x = x :=
    fun h1 h2 => wrap32_eq ⟨h1, h2⟩
  have c1 := tdiv_cases (65536 * tz) 24 (by norm_num)
  have c2 := tdiv_cases (65536 * (hour + tz)) 24 (by norm_num)
  have c3 := tdiv_cases (65536 * min) 1440 (by norm_num)
  refine ⟨r (by omega) (by omega), r (by omega) (by omega), r (by omega) (by omega),
    r (by omega) (by omega), by decide, r (by omega) (by omega), r (by omega) (by omega),
    r (by omega) (by omega), ?_, r (by omega) (by omega), r (by omega) (by omega)⟩
  unfold add32
  rw [zero_add]
  exact r (by omega) (by omega)

theorem angle_Z_bounds (tz hour min : Int) (hh : 0 ≤ hour ∧ hour ≤ 23)
    (hm : 0 ≤ min ∧ min ≤ 59) (htz : -24 ≤ tz ∧ tz ≤ 24) :
    angle_Z tz hour min = Int.tdiv (65536 * tz) 24 + Int.tdiv (65536 * (hour + tz)) 24
        + Int.tdiv (65536 * min) 1440 ∧
      -196608 ≤ angle_Z tz hour min ∧ angle_Z tz hour min ≤ 196608 := by
  have c1 := tdiv_cases (65536 * tz) 24 (by norm_num)
  have c2 := tdiv_cases (65536 * (hour + tz)) 24 (by norm_num)
  have c3 := tdiv_cases (65536 * min) 1440 (by norm_num)
  have e : angle_Z tz hour min = Int.tdiv (65536 * tz) 24
      + Int.tdiv (65536 * (hour + tz)) 24 + Int.tdiv (65536 * min) 1440 := by
    have e12 : (60 : Int) * 24 = 1440 := by norm_num
    unfold angle_Z TRIG_MAX_ANGLE
    rw [e12]
  rw [e]
  refine ⟨rfl, ?_, ?_⟩ <;> omega

theorem tick_angle_eq (tz hour min : Int) (hh : 0 ≤ hour ∧ hour ≤ 23)
    (hm : 0 ≤ min ∧ min ≤ 59) (htz : -24 ≤ tz ∧ tz ≤ 24) :
    tick_angle tz hour min = angle_Z tz hour min ∧
      -196608 ≤ angle_Z tz hour min ∧ angle_Z tz hour min ≤ 196608 := by
  obtain ⟨e1, e2, e3, e4, e5, e6, e7, e8, e9, e10, e11⟩ := tick_steps tz hour min hh hm htz
  obtain ⟨e, lo, hi⟩ := angle_Z_bounds tz hour min hh hm htz
  refine ⟨?_, lo, hi⟩
  rw [e]
  unfold tick_angle TRIG_MAX_ANGLE
  rw [e1, e2, e3, e4, e5, e6, e7, e8, e9, e10, e11]

theorem quadrant_eq_Z (a : Int) (h : inInt32 (a + 65536)) :
    quadrant a = quadrant_Z a := by
  have hn := normalize_range a
  have hq := quadrant_eq a
  have e : Int.land (a + 65536) 65535 = normalize a := by
    unfold normalize and32 add32 TRIG_MAX_ANGLE TRIG_MAX_RATIO
    rw [wrap32_eq h]
  unfold quadrant_Z TRIG_MAX_ANGLE TRIG_MAX_RATIO
  rw [e, Int.tdiv_eq_ediv (by omega) (by norm_num)]
  exact hq

theorem quadrant_tick_eq (tz hour min : Int) (hh : 0 ≤ hour ∧ hour ≤ 23)
    (hm : 0 ≤ min ∧ min ≤ 59) (htz : -24 ≤ tz ∧ tz ≤ 24) :
    quadrant (tick_angle tz hour min)
      = angle_Z tz hour min % 65536 * 32 / 65536 := by
  obtain ⟨e, lo, hi⟩ := tick_angle_eq tz hour min hh hm htz
  rw [e, quadrant_eq, normalize_eq_emod]
  unfold inInt32 INT32_MIN INT32_MAX
  omega

theorem angle_Z_zero_tz (hour min : Int) (hh : 0 ≤ hour) (hm : 0 ≤ min) :
    angle_Z 0 hour min = 65536 * hour / 24 + 65536 * min / 1440 := by
  have e1 : Int.tdiv (65536 * hour) 24 = 65536 * hour / 24 :=
    Int.tdiv_eq_ediv (by omega) (by norm_num)
  have e2 : Int.tdiv (65536 * min) 1440 = 65536 * min / 1440 :=
    Int.tdiv_eq_ediv (by omega) (by norm_num)
  have e3 : Int.tdiv 0 24 = 0 := by decide
  have e4 : (60 : Int) * 24 = 1440 := by norm_num
  unfold angle_Z TRIG_MAX_ANGLE
  rw [mul_zero, add_zero, e1, e3, e4, e2, zero_add]

theorem angle_Z_gmt (hour min : Int) (hh : 0 ≤ hour) (hm : 0 ≤ min) :
    angle_Z gmt_offset hour min
      = 2730 + 65536 * (hour + 1) / 24 + 65536 * min / 1440 := by
  have e1 : Int.tdiv (65536 * (hour + 1)) 24 = 65536 * (hour + 1) / 24 :=
    Int.tdiv_eq_ediv (by omega) (by norm_num)
  have e2 : Int.tdiv (65536 * min) 1440 = 65536 * min / 1440 :=
    Int.tdiv_eq_ediv (by omega) (by norm_num)
  have e3 : Int.tdiv (65536 * 1) 24 = 2730 := by decide
  have e4 : (60 : Int) * 24 = 1440 := by norm_num
  unfold angle_Z TRIG_MAX_ANGLE gmt_offset
  rw [e1, e3, e4, e2]

theorem fmt_d2_two_digits (n : Nat) (h : n < 100) :
    fmt_d2 (n : Int) = [Nat.digitChar (n / 10), Nat.digitChar (n % 10)] := by
  interval_cases n <;> rfl

/-! ## Sector range, label placement and label text -/

/-- C1: for every hour in [0,23], minute in [0,59] and offset `tz` in
[-24,24], the sector `q` of `handle_tick` is the value of
`(((angle + 65536) & 65535) * 32) / 65536` on the truncating-division angle,
and it satisfies `0 ≤ q ≤ 31`. -/
theorem quadrant_tick_in_range (tz hour min : Int) (hh : 0 ≤ hour ∧ hour ≤ 23)
    (hm : 0 ≤ min ∧ min ≤ 59) (htz : -24 ≤ tz ∧ tz ≤ 24) :
    quadrant (tick_angle tz hour min) = quadrant_Z (angle_Z tz hour min) ∧
      0 ≤ quadrant (tick_angle tz hour min) ∧
      quadrant (tick_angle tz hour min) ≤ 31 := by
  obtain ⟨e, lo, hi⟩ := tick_angle_eq tz hour min hh hm htz
  refine ⟨?_, quadrant_range _⟩
  rw [e]
  apply quadrant_eq_Z
  unfold inInt32 INT32_MIN INT32_MAX
  omega

/-- Witness of C1 at the compiled-in offset, midnight. -/
theorem quadrant_tick_in_range_witness :
    quadrant (tick_angle 1 0 0) = quadrant_Z (angle_Z 1 0 0) ∧
      0 ≤ quadrant (tick_angle 1 0 0) ∧ quadrant (tick_angle 1 0 0) ≤ 31 :=
  quadrant_tick_in_range 1 0 0 (by decide) (by decide) (by decide)

/-- C2: for every `q` in [0,31] the `if`/`else` chain picks the table origin of
the band of `q` — (0,-6) on 0..7, (0,150) on 8..15, (90,150) on 16..23,
(90,-6) on 24..31 — whatever the previous origin of the label was. -/
theorem place_origin_bands (q : Int) (hq : 0 ≤ q ∧ q ≤ 31) (prev prev2 : GPoint) :
    (q ≤ 7 → place_origin q prev = ⟨0, -6⟩) ∧
      (8 ≤ q → q ≤ 15 → place_origin q prev = ⟨0, 150⟩) ∧
      (16 ≤ q → q ≤ 23 → place_origin q prev = ⟨90, 150⟩) ∧
      (24 ≤ q → place_origin q prev = ⟨90, -6⟩) ∧
      place_origin q prev ∈
        [(⟨0, -6⟩ : GPoint), ⟨0, 150⟩, ⟨90, 150⟩, ⟨90, -6⟩] ∧
      place_origin q prev = place_origin q prev2 := by
  obtain ⟨h0, h31⟩ := hq
  unfold place_origin
  refine ⟨?_, ?_, ?_, ?_, ?_, ?_⟩
  · intro h; rw [if_pos h]
  · intro h1 h2
    rw [if_neg (by omega), if_pos h2]
  · intro h1 h2
    rw [if_neg (by omega), if_neg (by omega), if_pos h2]
  · intro h1
    rw [if_neg (by omega), if_neg (by omega), if_neg (by omega), if_pos h31]
  · split_ifs <;> simp
  · split_ifs <;> rfl

/-- Witness of C2 at `q = 20`, from two different previous origins. -/
theorem place_origin_bands_witness :
    ((20 : Int) ≤ 7 → place_origin 20 ⟨3, 4⟩ = ⟨0, -6⟩) ∧
      ((8 : Int) ≤ 20 → (20 : Int) ≤ 15 → place_origin 20 ⟨3, 4⟩ = ⟨0, 150⟩) ∧
      ((16 : Int) ≤ 20 → (20 : Int) ≤ 23 → place_origin 20 ⟨3, 4⟩ = ⟨90, 150⟩) ∧
      ((24 : Int) ≤ 20 → place_origin 20 ⟨3, 4⟩ = ⟨90, -6⟩) ∧
      place_origin 20 ⟨3, 4⟩ ∈
        [(⟨0, -6⟩ : GPoint), ⟨0, 150⟩, ⟨90, 150⟩, ⟨90, -6⟩] ∧
      place_origin 20 ⟨3, 4⟩ = place_origin 20 ⟨0, 0⟩ :=
  place_origin_bands 20 (by decide) ⟨3, 4⟩ ⟨0, 0⟩

/-- C3: for every hour in [0,23] and minute in [0,59] the label text written by
`handle_tick` has exactly 5 characters, is the whole output of the format (the
8-byte buffer truncates nothing), and reads tens and units of the hour, a
colon, tens and units of the minute; for 3:05 it is `03:05`. -/
theorem label_text_HH_MM (hour min : Int) (hh : 0 ≤ hour ∧ hour ≤ 23)
    (hm : 0 ≤ min ∧ min ≤ 59) (s : Display) :
    (handle_tick ⟨hour, min⟩ s).text.length = 5 ∧
      (handle_tick ⟨hour, min⟩ s).text = format_time hour min ∧
      (handle_tick ⟨hour, min⟩ s).text =
        [Nat.digitChar (hour.toNat / 10), Nat.digitChar (hour.toNat % 10), ':',
          Nat.digitChar (min.toNat / 10), Nat.digitChar (min.toNat % 10)] ∧
      String.mk (handle_tick ⟨3, 5⟩ s).text = "03:05" := by
  obtain ⟨a, rfl⟩ := Int.eq_ofNat_of_zero_le hh.1
  obtain ⟨b, rfl⟩ := Int.eq_ofNat_of_zero_le hm.1
  have ha : a < 100 := by omega
  have hb : b < 100 := by omega
  have e : (handle_tick ⟨(a : Int), (b : Int)⟩ s).text
      = [Nat.digitChar (a / 10), Nat.digitChar (a % 10), ':',
          Nat.digitChar (b / 10), Nat.digitChar (b % 10)] := by
    show List.take 7 (fmt_d2 (a : Int) ++ ':' :: fmt_d2 (b : Int)) = _
    rw [fmt_d2_two_digits a ha, fmt_d2_two_digits b hb]
    rfl
  refine ⟨?_, ?_, ?_, rfl⟩
  · rw [e]; rfl
  · rw [e]
    show _ = fmt_d2 (a : Int) ++ ':' :: fmt_d2 (b : Int)
    rw [fmt_d2_two_digits a ha, fmt_d2_two_digits b hb]
    rfl
  · rw [e]; simp

/-- Witness of C3 at 23:59. -/
theorem label_text_HH_MM_witness :
    (handle_tick ⟨23, 59⟩ ⟨⟨⟨90, -6⟩, ⟨60, 20⟩⟩, [], 0⟩).text.length = 5 ∧
      (handle_tick ⟨23, 59⟩ ⟨⟨⟨90, -6⟩, ⟨60, 20⟩⟩, [], 0⟩).text = format_time 23 59 ∧
      (handle_tick ⟨23, 59⟩ ⟨⟨⟨90, -6⟩, ⟨60, 20⟩⟩, [], 0⟩).text =
        [Nat.digitChar ((23 : Int).toNat / 10), Nat.digitChar ((23 : Int).toNat % 10), ':',
          Nat.digitChar ((59 : Int).toNat / 10), Nat.digitChar ((59 : Int).toNat % 10)] ∧
      String.mk (handle_tick ⟨3, 5⟩ ⟨⟨⟨90, -6⟩, ⟨60, 20⟩⟩, [], 0⟩).text = "03:05" :=
  label_text_HH_MM 23 59 (by decide) (by decide) ⟨⟨⟨90, -6⟩, ⟨60, 20⟩⟩, [], 0⟩

/-- C4, as stated, fails: at offset +1, 0:00 the angle of `handle_tick` is not
`FULL / 12 = 5461`. -/
theorem angle_midnight_ne_full_div_12 :
    Int.tdiv TRIG_MAX_ANGLE 12 = 5461 ∧
      ¬ (tick_angle gmt_offset 0 0 = Int.tdiv TRIG_MAX_ANGLE 12) := by
  decide

/-- C4, amended: at offset +1, 0:00 the angle of `handle_tick` is
`2 * (FULL / 24) = 5460`, and the map layer receives `-5460`. -/
theorem angle_midnight_eq (s : Display) :
    tick_angle gmt_offset 0 0 = 2 * Int.tdiv TRIG_MAX_ANGLE 24 ∧
      tick_angle gmt_offset 0 0 = 5460 ∧
      (handle_tick ⟨0, 0⟩ s).map_angle = -5460 := by
  refine ⟨by decide, by decide, ?_⟩
  show neg32 (tick_angle gmt_offset 0 0) = -5460
  decide

/-! ## Sectors over the day -/

/-- With offset 0 and minute 0 the sector of hour `h` is `4 * h / 3`. -/
theorem quadrant_on_the_hour (h : Int) (hh : 0 ≤ h ∧ h ≤ 23) :
    quadrant (tick_angle 0 h 0) = 4 * h / 3 := by
  rw [quadrant_tick_eq 0 h 0 hh (by decide) (by decide),
    angle_Z_zero_tz h 0 hh.1 (le_refl 0)]
  obtain ⟨h0, h23⟩ := hh
  interval_cases h <;> rfl

/-- C5: with offset 0 and minute 0 the sector strictly increases with the hour
over the day. -/
theorem quadrant_strictly_increasing (h1 h2 : Int) (h0 : 0 ≤ h1) (hlt : h1 < h2)
    (h23 : h2 ≤ 23) :
    quadrant (tick_angle 0 h1 0) < quadrant (tick_angle 0 h2 0) := by
  rw [quadrant_on_the_hour h1 ⟨h0, by omega⟩, quadrant_on_the_hour h2 ⟨by omega, h23⟩]
  omega

/-- Witness of C5 at hours 2 and 3 (sectors 2 and 4). -/
theorem quadrant_strictly_increasing_witness :
    quadrant (tick_angle 0 2 0) < quadrant (tick_angle 0 3 0) :=
  quadrant_strictly_increasing 2 3 (by decide) (by decide) (by decide)

/-- C6, as stated, fails: with offset 0 and minute 0 no hour of the day falls
in sector 3. -/
theorem sector_three_not_on_the_hour :
    ¬ ∃ h : Int, 0 ≤ h ∧ h ≤ 23 ∧ quadrant (tick_angle 0 h 0) = 3 := by
  rintro ⟨h, h0, h23, e⟩
  rw [quadrant_on_the_hour h ⟨h0, h23⟩] at e
  omega

/-- C6, amended: with offset 0 and minute 0 a sector `k` in [0,31] is reached
by some hour of the day exactly when `k % 4 ≠ 3` (24 of the 32 sectors); every
sector in [0,31] is reached once the minute runs through [0,59] as well. -/
theorem sectors_reached (k : Int) (hk : 0 ≤ k ∧ k ≤ 31) :
    ((∃ h : Int, 0 ≤ h ∧ h ≤ 23 ∧ quadrant (tick_angle 0 h 0) = k) ↔ k % 4 ≠ 3) ∧
      ∃ h m : Int, 0 ≤ h ∧ h ≤ 23 ∧ 0 ≤ m ∧ m ≤ 59 ∧
        quadrant (tick_angle 0 h m) = k := by
  constructor
  · constructor
    · rintro ⟨h, h0, h23, e⟩
      rw [quadrant_on_the_hour h ⟨h0, h23⟩] at e
      omega
    · intro hk3
      have hr : k % 4 = 0 ∨ k % 4 = 1 ∨ k % 4 = 2 := by omega
      have hb : 0 ≤ (3 * k + 3) / 4 ∧ (3 * k + 3) / 4 ≤ 23 := by
        rcases hr with r | r | r <;> omega
      refine ⟨(3 * k + 3) / 4, hb.1, hb.2, ?_⟩
      rw [quadrant_on_the_hour _ hb]
      rcases hr with r | r | r <;> omega
  · have key : ∀ h m : Int, 0 ≤ h ∧ h ≤ 23 → 0 ≤ m ∧ m ≤ 59 →
        (65536 * h / 24 + 65536 * m / 1440) % 65536 * 32 / 65536 = k →
        ∃ h m : Int, 0 ≤ h ∧ h ≤ 23 ∧ 0 ≤ m ∧ m ≤ 59 ∧
          quadrant (tick_angle 0 h m) = k := by
      intro h m hh hm e
      refine ⟨h, m, hh.1, hh.2, hm.1, hm.2, ?_⟩
      rw [quadrant_tick_eq 0 h m hh hm (by decide), angle_Z_zero_tz h m hh.1 hm.1]
      exact e
    have hr : k % 4 = 0 ∨ k % 4 = 1 ∨ k % 4 = 2 ∨ k % 4 = 3 := by omega
    rcases hr with r | r | r | r
    · exact key (3 * (k / 4)) 0 (by omega) (by omega) (by omega)
    · exact key (3 * (k / 4)) 46 (by omega) (by omega) (by omega)
    · exact key (3 * (k / 4) + 1) 31 (by omega) (by omega) (by omega)
    · exact key (3 * (k / 4) + 2) 16 (by omega) (by omega) (by omega)

/-- Witness of C6 (amended) at sector 7, which no full hour reaches. -/
theorem sectors_reached_witness :
    ((∃ h : Int, 0 ≤ h ∧ h ≤ 23 ∧ quadrant (tick_angle 0 h 0) = 7) ↔ (7 : Int) % 4 ≠ 3) ∧
      ∃ h m : Int, 0 ≤ h ∧ h ≤ 23 ∧ 0 ≤ m ∧ m ≤ 59 ∧
        quadrant (tick_angle 0 h m) = 7 :=
  sectors_reached 7 (by decide)

/-- C7: with offset 0 at 12:30 the angle is `FULL/2 + FULL/48 = 34133`, its
sector lies in 16..23 and the label goes to the lower-right origin (90,150). -/
theorem half_past_noon (s : Display) :
    tick_angle 0 12 30 = Int.tdiv TRIG_MAX_ANGLE 2 + Int.tdiv TRIG_MAX_ANGLE 48 ∧
      tick_angle 0 12 30 = 34133 ∧
      16 ≤ quadrant (tick_angle 0 12 30) ∧ quadrant (tick_angle 0 12 30) ≤ 23 ∧
      (handle_tick_tz 0 ⟨12, 30⟩ s).frame.origin = ⟨90, 150⟩ := by
  have hq : quadrant (tick_angle 0 12 30) = 16 := by decide
  refine ⟨by decide, by decide, by decide, by decide, ?_⟩
  show place_origin (quadrant (tick_angle 0 12 30)) s.frame.origin = _
  rw [hq]
  rfl

/-! ## Idempotence, normalisation and absence of overflow -/

theorem tick_intermediates_eq (tz hour min : Int) (hh : 0 ≤ hour ∧ hour ≤ 23)
    (hm : 0 ≤ min ∧ min ≤ 59) (htz : -24 ≤ tz ∧ tz ≤ 24) :
    tick_intermediates tz hour min =
      [ 65536 * tz, Int.tdiv (65536 * tz) 24, 0 + Int.tdiv (65536 * tz) 24,
        hour + tz, 65536 * (hour + tz), Int.tdiv (65536 * (hour + tz)) 24,
        Int.tdiv (65536 * tz) 24 + Int.tdiv (65536 * (hour + tz)) 24,
        65536 * min, 60 * 24, Int.tdiv (65536 * min) 1440,
        angle_Z tz hour min,
        angle_Z tz hour min + 65536,
        angle_Z tz hour min % 65536 * 32,
        angle_Z tz hour min % 65536 * 32 / 65536,
        -angle_Z tz hour min ] := by
  obtain ⟨e1, e2, e3, e4, e5, e6, e7, e8, e9, e10, e11⟩ := tick_steps tz hour min hh hm htz
  obtain ⟨e, lo, hi⟩ := angle_Z_bounds tz hour min hh hm htz
  have hn : normalize (angle_Z tz hour min) = angle_Z tz hour min % 65536 :=
    normalize_eq_emod _ (by unfold inInt32 INT32_MIN INT32_MAX; omega)
  have hm32 : mul32 (angle_Z tz hour min % 65536) 32 = angle_Z tz hour min % 65536 * 32 :=
    wrap32_eq (by unfold inInt32 INT32_MIN INT32_MAX; omega)
  have hd : Int.tdiv (angle_Z tz hour min % 65536 * 32) 65536
      = angle_Z tz hour min % 65536 * 32 / 65536 :=
    Int.tdiv_eq_ediv (by omega) (by norm_num)
  unfold tick_intermediates TRIG_MAX_ANGLE
  simp only []
  rw [e1, e2, e3, e4, e5, e6, e7, e8, e9, e10, e11, ← e, hn, hm32, hd]

theorem place_origin_indep (q : Int) (hq : 0 ≤ q ∧ q ≤ 31) (p p2 : GPoint) :
    place_origin q p = place_origin q p2 := by
  obtain ⟨h0, h31⟩ := hq
  unfold place_origin
  split_ifs <;> rfl

theorem neg32_tick_angle (hour min : Int) (hh : 0 ≤ hour ∧ hour ≤ 23)
    (hm : 0 ≤ min ∧ min ≤ 59) :
    neg32 (tick_angle gmt_offset hour min) = -angle_Z gmt_offset hour min := by
  obtain ⟨e, lo, hi⟩ := tick_angle_eq gmt_offset hour min hh hm (by decide)
  rw [e]
  exact wrap32_eq (by unfold inInt32 INT32_MIN INT32_MAX; omega)

/-- C8: `handle_tick` is idempotent on the display state: for every prior state
and every timestamp with hour in [0,23] and minute in [0,59], a second
application with the same timestamp changes nothing, and the origin, the text
and the rotation (`-angle`) it leaves do not depend on the prior state. -/
theorem handle_tick_idempotent (hour min : Int) (hh : 0 ≤ hour ∧ hour ≤ 23)
    (hm : 0 ≤ min ∧ min ≤ 59) (s s2 : Display) :
    handle_tick ⟨hour, min⟩ (handle_tick ⟨hour, min⟩ s) = handle_tick ⟨hour, min⟩ s ∧
      (handle_tick ⟨hour, min⟩ s).frame.origin
        = (handle_tick ⟨hour, min⟩ s2).frame.origin ∧
      (handle_tick ⟨hour, min⟩ s).text = (handle_tick ⟨hour, min⟩ s2).text ∧
      (handle_tick ⟨hour, min⟩ s).map_angle = (handle_tick ⟨hour, min⟩ s2).map_angle ∧
      (handle_tick ⟨hour, min⟩ s).map_angle = -angle_Z gmt_offset hour min := by
  have hq := quadrant_range (tick_angle gmt_offset hour min)
  refine ⟨?_, ?_, rfl, rfl, ?_⟩
  · have ho := place_origin_indep _ hq
      (place_origin (quadrant (tick_angle gmt_offset hour min)) s.frame.origin)
      s.frame.origin
    simp only [handle_tick, handle_tick_tz]
    rw [ho]
  · exact place_origin_indep _ hq _ _
  · exact neg32_tick_angle hour min hh hm

/-- Witness of C8 at 12:30, from two different prior states. -/
theorem handle_tick_idempotent_witness :
    handle_tick ⟨12, 30⟩ (handle_tick ⟨12, 30⟩ ⟨⟨⟨90, -6⟩, ⟨60, 20⟩⟩, [], 0⟩)
        = handle_tick ⟨12, 30⟩ ⟨⟨⟨90, -6⟩, ⟨60, 20⟩⟩, [], 0⟩ ∧
      (handle_tick ⟨12, 30⟩ ⟨⟨⟨90, -6⟩, ⟨60, 20⟩⟩, [], 0⟩).frame.origin
        = (handle_tick ⟨12, 30⟩ ⟨⟨⟨0, 150⟩, ⟨60, 20⟩⟩, ['x'], 7⟩).frame.origin ∧
      (handle_tick ⟨12, 30⟩ ⟨⟨⟨90, -6⟩, ⟨60, 20⟩⟩, [], 0⟩).text
        = (handle_tick ⟨12, 30⟩ ⟨⟨⟨0, 150⟩, ⟨60, 20⟩⟩, ['x'], 7⟩).text ∧
      (handle_tick ⟨12, 30⟩ ⟨⟨⟨90, -6⟩, ⟨60, 20⟩⟩, [], 0⟩).map_angle
        = (handle_tick ⟨12, 30⟩ ⟨⟨⟨0, 150⟩, ⟨60, 20⟩⟩, ['x'], 7⟩).map_angle ∧
      (handle_tick ⟨12, 30⟩ ⟨⟨⟨90, -6⟩, ⟨60, 20⟩⟩, [], 0⟩).map_angle
        = -angle_Z gmt_offset 12 30 :=
  handle_tick_idempotent 12 30 (by decide) (by decide)
    ⟨⟨⟨90, -6⟩, ⟨60, 20⟩⟩, [], 0⟩ ⟨⟨⟨0, 150⟩, ⟨60, 20⟩⟩, ['x'], 7⟩

/-- C9: for every 32-bit signed angle for which `angle + 65536` does not
overflow, the bit-mask normalisation `(angle + 65536) & 65535` equals the
non-negative remainder of the angle modulo 65536; it lies in [0, 65536) and is
congruent to the angle modulo 65536. -/
theorem normalize_eq_modulo (angle : Int) (hlo : INT32_MIN ≤ angle)
    (hhi : angle + TRIG_MAX_ANGLE ≤ INT32_MAX) :
    normalize angle = normalize_mod angle ∧
      0 ≤ normalize angle ∧ normalize angle < 65536 ∧
      (normalize angle - angle) % 65536 = 0 := by
  unfold INT32_MIN at hlo
  unfold INT32_MAX TRIG_MAX_ANGLE at hhi
  have e : normalize angle = angle % 65536 :=
    normalize_eq_emod angle (by unfold inInt32 INT32_MIN INT32_MAX; omega)
  unfold normalize_mod TRIG_MAX_ANGLE
  rw [e]
  omega

/-- Witness of C9 at the angle -1, whose normalisation is 65535. -/
theorem normalize_eq_modulo_witness :
    normalize (-1) = normalize_mod (-1) ∧
      0 ≤ normalize (-1) ∧ normalize (-1) < 65536 ∧
      (normalize (-1) - (-1)) % 65536 = 0 :=
  normalize_eq_modulo (-1) (by decide) (by decide)

/-- C10: with `gmt_offset = +1`, for every hour in [0,23] and minute in [0,59]
no operation of the angle and sector computation leaves the signed 32-bit
range, the angle lies in [5460, 70951], and angle, sector and the negated
angle equal the same expressions over unbounded integers. -/
theorem no_overflow_at_gmt_offset (hour min : Int) (hh : 0 ≤ hour ∧ hour ≤ 23)
    (hm : 0 ≤ min ∧ min ≤ 59) :
    (∀ x ∈ tick_intermediates gmt_offset hour min, inInt32 x) ∧
      5460 ≤ tick_angle gmt_offset hour min ∧
      tick_angle gmt_offset hour min ≤ 70951 ∧
      tick_angle gmt_offset hour min = angle_Z gmt_offset hour min ∧
      quadrant (tick_angle gmt_offset hour min)
        = quadrant_Z (angle_Z gmt_offset hour min) ∧
      neg32 (tick_angle gmt_offset hour min) = -angle_Z gmt_offset hour min := by
  obtain ⟨e, lo, hi⟩ := tick_angle_eq gmt_offset hour min hh hm (by decide)
  have eg := angle_Z_gmt hour min hh.1 hm.1
  have c1 := tdiv_cases (65536 * gmt_offset) 24 (by norm_num)
  have c2 := tdiv_cases (65536 * (hour + gmt_offset)) 24 (by norm_num)
  have c3 := tdiv_cases (65536 * min) 1440 (by norm_num)
  have g : gmt_offset = 1 := rfl
  refine ⟨?_, ?_, ?_, e, ?_, neg32_tick_angle hour min hh hm⟩
  · rw [tick_intermediates_eq gmt_offset hour min hh hm (by decide)]
    intro x hx
    simp only [List.mem_cons, List.mem_singleton, List.not_mem_nil, or_false] at hx
    unfold inInt32 INT32_MIN INT32_MAX
    rcases hx with h | h | h | h | h | h | h | h | h | h | h | h | h | h | h <;>
      (rw [h]; omega)
  · rw [e]; omega
  · rw [e]; omega
  · rw [e]
    exact quadrant_eq_Z _ (by unfold inInt32 INT32_MIN INT32_MAX; omega)

/-- Witness of C10 at 23:59, where the angle reaches its maximum 70951. -/
theorem no_overflow_at_gmt_offset_witness :
    (∀ x ∈ tick_intermediates gmt_offset 23 59, inInt32 x) ∧
      5460 ≤ tick_angle gmt_offset 23 59 ∧
      tick_angle gmt_offset 23 59 ≤ 70951 ∧
      tick_angle gmt_offset 23 59 = angle_Z gmt_offset 23 59 ∧
      quadrant (tick_angle gmt_offset 23 59) = quadrant_Z (angle_Z gmt_offset 23 59) ∧
      neg32 (tick_angle gmt_offset 23 59) = -angle_Z gmt_offset 23 59 :=
  no_overflow_at_gmt_offset 23 59 (by decide) (by decide)

end PolarMap
